import Mathlib

/-!
Verification of the device-memory sub-allocator in `src/render/memalloc.rs`
of the hublot repository.

The Rust code is shallowly embedded: `u64` values become `Nat`. The one
operation whose `u64` overflow is reachable from valid inputs —
`u64::next_power_of_two` inside the sizing policy, for arguments above
`2 ^ 63` — is modelled with its release-mode wrap-to-`0` semantics
(debug builds panic there instead); every other quantity involved (byte
offsets, sizes, bit masks over at most a few dozen memory types) stays
far below `2 ^ 64` on `u64` inputs, so no other wrap-around occurs.
`Vec` becomes `List`, a `Range<u64>` becomes `Span`, and a Rust panic
(out-of-bounds index, `unwrap` / `expect` failure) is represented by
`Option`: a function returns `none` exactly on the inputs where the
Rust code would panic.

External collaborators are modelled at their boundary: a raw
`DeviceMemory` object is represented by a `Nat` identity (the code only
ever compares handles by `Arc::ptr_eq`), `device.allocate_memory` is
modelled as always succeeding and returning a caller-supplied fresh
identity, and `create_buffer` / `bind_buffer_memory` outcomes are
supplied as boolean parameters, since the device is outside the
allocator.
-/

namespace Memalloc

/-- A byte range within one raw memory object (`Range<u64>` in the source;
`end` is a Lean keyword, hence the field name `stop`). -/
structure Span where
  start : Nat
  stop : Nat
  deriving DecidableEq, Inhabited

/-- `Chunk`: a contiguous byte span within one raw allocation plus an
occupied/free flag (`memalloc.rs` lines 845-850). -/
structure Chunk where
  span : Span
  occupied : Bool
  deriving DecidableEq, Inhabited

/-- The raw `{size, alignment, type_mask}` requirements reported by the
device for a resource (`hal::memory::Requirements`). -/
structure Requirements where
  size : Nat
  alignment : Nat
  type_mask : Nat
  deriving DecidableEq, Inhabited

/-- One entry of `mem_props.memory_types`: property bit set and owning
heap index. -/
structure MemoryType where
  properties : Nat
  heap_index : Nat
  deriving DecidableEq, Inhabited

/-- `memory::Properties` bits used by the allocator (gfx-hal values). -/
def DEVICE_LOCAL : Nat := 1
def CPU_VISIBLE : Nat := 2
def COHERENT : Nat := 4
def CPU_CACHED : Nat := 8

/-- `MemoryUsage` (`memalloc.rs` lines 80-109). -/
inductive MemoryUsage where
  | GpuOnly
  | CpuOnly
  | CpuToGpu
  | GpuToCpu
  deriving DecidableEq

/-- `AllocControl` (`memalloc.rs` lines 62-72). -/
inductive AllocControl where
  | Pool (no_alloc : Bool)
  | Dedicated
  deriving DecidableEq

/-- `AllocOptions` (`memalloc.rs` lines 111-128); property sets are bit
masks. -/
structure AllocOptions where
  control : AllocControl
  usage : Option MemoryUsage
  preferred_props : Nat
  required_props : Nat
  type_index_mask : Nat
  deriving DecidableEq

/-- `Error` (`memalloc.rs` lines 240-247). -/
inductive Error where
  | HeapExhausted
  | NoFreeBlock
  deriving DecidableEq

/-- `BufferError` (`memalloc.rs` lines 249-255). The payloads of the
device-side variants are opaque to the allocator and are dropped. -/
inductive BufferError where
  | Creation
  | Bind
  | Alloc
  | Error (e : Memalloc.Error)
  deriving DecidableEq

/-- The sub-allocation result `AllocRes` (`memalloc.rs` lines 574-579):
shared handle to the block's raw memory (modelled by its identity),
byte range, heap index. -/
structure AllocRes where
  mem : Nat
  span : Span
  heap_idx : Nat
  deriving DecidableEq, Inhabited

/-- `align_up` (`memalloc.rs` lines 619-633), bit-for-bit: `alignment`
must be a power of two (the source `debug_assert`s this). -/
def align_up (addr alignment : Nat) : Nat :=
  let align_mask := alignment - 1
  if addr &&& align_mask = 0 then addr else (addr ||| align_mask) + 1

/-- `Block` (`memalloc.rs` lines 742-751): one raw memory object
(identified by `mem`), its memory-type index, the `dedicated` flag and
the chunk list. -/
structure Block where
  mem : Nat
  mem_type_index : Nat
  dedicated : Bool
  chunks : List Chunk
  deriving DecidableEq, Inhabited

/-- `Block::new` (`memalloc.rs` lines 754-764): a single free chunk
spanning `[0, size)`. -/
def Block.new (mem mem_type_index size : Nat) (dedicated : Bool) : Block :=
  { mem := mem
    mem_type_index := mem_type_index
    dedicated := dedicated
    chunks := [⟨⟨0, size⟩, false⟩] }

/-- The spot-search loop of `Block::allocate` (`memalloc.rs` lines
767-782). The source iterates `chunks.iter_mut().filter(|c|
!c.occupied).enumerate()`, so the returned index `i` counts only the
free chunks seen so far (the `enumerate` sits outside the `filter`). -/
def findSpot (reqs : Requirements) : List Chunk → Nat → Option (Nat × Chunk)
  | [], _ => none
  | c :: rest, i =>
    if c.occupied then findSpot reqs rest i
    else
      let start := align_up c.span.start reqs.alignment
      let stop := align_up (start + reqs.size) reqs.alignment
      if stop ≤ c.span.stop then some (i, ⟨⟨start, stop⟩, true⟩)
      else findSpot reqs rest (i + 1)

/-- `Block::allocate` (`memalloc.rs` lines 766-809). Mirrors the source
exactly: `current` is read at the filtered index, a free pre-pad and a
free post-pad are inserted when non-empty, and — as in the source — the
chunk at the accepted index is never overwritten with the occupied
chunk `new`. -/
def Block.allocate (b : Block) (heap_idx : Nat) (reqs : Requirements) :
    Option (AllocRes × Block) :=
  (findSpot reqs b.chunks 0).map (fun spot =>
    let idx0 := spot.1
    let new := spot.2
    let current := b.chunks.getD idx0 default
    let step1 : Nat × List Chunk :=
      if current.span.start < new.span.start then
        (idx0 + 1, b.chunks.insertIdx idx0 ⟨⟨current.span.start, new.span.start⟩, false⟩)
      else (idx0, b.chunks)
    let chunks :=
      if new.span.stop < current.span.stop then
        step1.2.insertIdx (step1.1 + 1) ⟨⟨new.span.stop, current.span.stop⟩, false⟩
      else step1.2
    (⟨b.mem, new.span, heap_idx⟩, { b with chunks := chunks }))

/-- `Block::free` (`memalloc.rs` lines 811-842). `none` models a panic:
either the `expect` on a missing chunk, or an out-of-bounds chunk
index. The source guards the back merge with `idx < self.chunks.len()`
(not `idx + 1 < …`) before reading `self.chunks[idx + 1]`, and after
`remove(idx)` it writes `self.chunks[idx + 1]` again; both reads are
reproduced here with explicit bounds checks returning `none` when the
Rust indexing would panic. -/
def Block.free (b : Block) (addr : Nat) : Option (Bool × Block) :=
  match b.chunks.findIdx? (fun c => c.span.start == addr) with
  | none => none
  | some idx0 =>
    let c0 := b.chunks.getD idx0 default
    let cs0 := b.chunks.set idx0 ⟨c0.span, false⟩
    let step : Nat × List Chunk :=
      if 0 < idx0 ∧ (cs0.getD (idx0 - 1) default).occupied = false then
        let freed := cs0.getD idx0 default
        let cs1 := cs0.eraseIdx idx0
        let left := cs1.getD (idx0 - 1) default
        (idx0 - 1, cs1.set (idx0 - 1) ⟨⟨left.span.start, freed.span.stop⟩, left.occupied⟩)
      else (idx0, cs0)
    let idx := step.1
    let cs := step.2
    if idx < cs.length then
      if h1 : idx + 1 < cs.length then
        if (cs.get ⟨idx + 1, h1⟩).occupied = false then
          let freed := cs.getD idx default
          let cs2 := cs.eraseIdx idx
          if h2 : idx + 1 < cs2.length then
            let right := cs2.get ⟨idx + 1, h2⟩
            let cs3 := cs2.set (idx + 1) ⟨⟨freed.span.start, right.span.stop⟩, right.occupied⟩
            some (cs3.length == 1, { b with chunks := cs3 })
          else none
        else some (cs.length == 1, { b with chunks := cs })
      else none
    else some (cs.length == 1, { b with chunks := cs })

/-- `Pool` (`memalloc.rs` lines 635-645); the `device` handle is
external and omitted. -/
structure Pool where
  heap_idx : Nat
  max_bytes : Nat
  used_bytes : Nat
  block_size : Nat
  blocks : List Block
  deriving DecidableEq, Inhabited

/-- `Pool::new` (`memalloc.rs` lines 648-657). -/
def Pool.new (heap_idx max_bytes block_size : Nat) : Pool :=
  { heap_idx := heap_idx
    max_bytes := max_bytes
    used_bytes := 0
    block_size := block_size
    blocks := [] }

/-- `Pool::new_block_alloc` (`memalloc.rs` lines 709-739), including the
source's capacity test written exactly as in the code
(`used_bytes + sz < max_bytes` rejects). `newMem` is the identity of
the raw memory object the device returns; the device call itself is
modelled as always succeeding. `none` models the panic of the final
`.allocate(..).unwrap()`. -/
def Pool.new_block_alloc (p : Pool) (mem_type_index : Nat) (reqs : Requirements)
    (dedicated : Bool) (newMem : Nat) : Option (Except Error (AllocRes × Pool)) :=
  let sz := if dedicated then reqs.size else max reqs.size p.block_size
  if p.used_bytes + sz < p.max_bytes then
    some (.error .HeapExhausted)
  else
    match (Block.new newMem mem_type_index sz (sz == reqs.size)).allocate p.heap_idx reqs with
    | none => none
    | some (res, blk) =>
      some (.ok (res, { p with
        used_bytes := p.used_bytes + sz
        blocks := p.blocks ++ [blk] }))

/-- The scan of `Pool::allocate_pool` (`memalloc.rs` lines 693-701):
try each block whose memory-type index matches and whose `dedicated`
flag is unset, in order, returning the first success together with the
updated block list. -/
def alloc_in_blocks (heap_idx mem_type_index : Nat) (reqs : Requirements) :
    List Block → Option (AllocRes × List Block)
  | [] => none
  | b :: rest =>
    if b.mem_type_index = mem_type_index ∧ b.dedicated = false then
      match b.allocate heap_idx reqs with
      | some (res, b') => some (res, b' :: rest)
      | none => (alloc_in_blocks heap_idx mem_type_index reqs rest).map
          (fun r => (r.1, b :: r.2))
    else
      (alloc_in_blocks heap_idx mem_type_index reqs rest).map
        (fun r => (r.1, b :: r.2))

/-- `Pool::allocate_pool` (`memalloc.rs` lines 687-707). -/
def Pool.allocate_pool (p : Pool) (mem_type_index : Nat) (reqs : Requirements)
    (no_alloc : Bool) (newMem : Nat) : Option (Except Error (AllocRes × Pool)) :=
  match alloc_in_blocks p.heap_idx mem_type_index reqs p.blocks with
  | some (res, blocks) => some (.ok (res, { p with blocks := blocks }))
  | none =>
    if no_alloc then some (.error .NoFreeBlock)
    else p.new_block_alloc mem_type_index reqs false newMem

/-- `Pool::allocate` (`memalloc.rs` lines 659-669). -/
def Pool.allocate (p : Pool) (mem_type_index : Nat) (reqs : Requirements)
    (control : AllocControl) (newMem : Nat) : Option (Except Error (AllocRes × Pool)) :=
  match control with
  | .Pool no_alloc => p.allocate_pool mem_type_index reqs no_alloc newMem
  | .Dedicated => p.new_block_alloc mem_type_index reqs true newMem

/-- `Pool::free` (`memalloc.rs` lines 671-685). `none` models a panic
(no block with this memory identity, or a panic inside `Block::free`).
The `device.free_memory` release on the fully-free path is an external
effect with no allocator-visible state beyond the removal of the
block. -/
def Pool.free (p : Pool) (mem : Nat) (addr : Nat) : Option Pool :=
  match p.blocks.findIdx? (fun b => b.mem == mem) with
  | none => none
  | some idx =>
    match (p.blocks.getD idx default).free addr with
    | none => none
    | some (empty, blk) =>
      if empty then some { p with blocks := (p.blocks.set idx blk).eraseIdx idx }
      else some { p with blocks := p.blocks.set idx blk }

/-- Invariant I1 of the spec, as a decidable predicate on a chunk list:
chunks are ordered and contiguous from `start`, each has positive
length, and the last one ends at `size`. -/
def spans_cover (start size : Nat) : List Chunk → Bool
  | [] => start == size
  | c :: rest =>
    (c.span.start == start) && (c.span.start < c.span.stop) &&
      spans_cover c.span.stop size rest

/-- Invariant I2 of the spec: no two adjacent chunks are both free. -/
def no_adjacent_free : List Chunk → Bool
  | [] => true
  | [_] => true
  | c1 :: c2 :: rest =>
    !(!c1.occupied && !c2.occupied) && no_adjacent_free (c2 :: rest)

/-- Invariants I1 and I2 together: the chunk list exactly partitions
`[0, size)` in order with no gap, no overlap, and no two adjacent free
chunks. -/
def block_invariant (size : Nat) (cs : List Chunk) : Bool :=
  spans_cover 0 size cs && no_adjacent_free cs

/-- Number of set bits (the semantics of `u64::count_ones`). The
recursion is driven by a fuel argument so that the definition is
structural and kernel-reducible; fuel `n` always suffices, because the
bit length of `n` is at most `n`. -/
def popCountGo : Nat → Nat → Nat
  | 0, _ => 0
  | f + 1, n => if n = 0 then 0 else n % 2 + popCountGo f (n / 2)

/-- `popCount n` = number of set bits of `n`. -/
def popCount (n : Nat) : Nat := popCountGo n n

/-- `Allocator::find_mem_type_index`'s candidate scan (`memalloc.rs`
lines 519-543): ascending over the enumerated memory types, skip
indices outside the allowed mask, skip types failing the source's test
`required.contains(props)` — which in `bitflags` means
`props ⊆ required`, i.e. `required &&& props = props` — and keep the
candidate with the strictly greatest score, first one winning ties. -/
def ftmi_go (mask preferred required : Nat) :
    List MemoryType → Nat → Option (Nat × Nat) → Option (Nat × Nat)
  | [], _, best => best
  | ty :: rest, i, best =>
    let best' :=
      if mask &&& (1 <<< i) = 0 then best
      else if ¬ (required &&& ty.properties = ty.properties) then best
      else
        let score := popCount (preferred &&& ty.properties)
        match best with
        | none => some (i, score)
        | some (idx, sc) => if sc < score then some (i, score) else some (idx, sc)
    ftmi_go mask preferred required rest (i + 1) best'

/-- `Allocator::find_mem_type_index` (`memalloc.rs` lines 486-544):
intersect the allowed mask with the optional `type_index_mask`, expand
the optional usage into preferred/required bits, then scan. -/
def find_mem_type_index (memory_types : List MemoryType) (allowed_index_mask : Nat)
    (options : AllocOptions) : Option Nat :=
  let allowed_index_mask :=
    if options.type_index_mask ≠ 0 then allowed_index_mask &&& options.type_index_mask
    else allowed_index_mask
  let preferred := options.preferred_props |||
    (match options.usage with
     | none => 0
     | some .GpuOnly => DEVICE_LOCAL
     | some .CpuOnly => 0
     | some .CpuToGpu => DEVICE_LOCAL
     | some .GpuToCpu => COHERENT ||| CPU_CACHED)
  let required := options.required_props |||
    (match options.usage with
     | none => 0
     | some .GpuOnly => 0
     | some .CpuOnly => CPU_VISIBLE ||| COHERENT
     | some .CpuToGpu => CPU_VISIBLE
     | some .GpuToCpu => CPU_VISIBLE)
  (ftmi_go allowed_index_mask preferred required memory_types 0 none).map Prod.fst

/-- Floor base-2 logarithm, fuel-driven so that it is structural and
kernel-reducible; `log2go f n` computes `Nat.log2 n` whenever `n ≤ f`. -/
def log2go : Nat → Nat → Nat
  | 0, _ => 0
  | f + 1, n => if 2 ≤ n then log2go f (n / 2) + 1 else 0

/-- Floor base-2 logarithm (`log2 0 = 0`). -/
def log2 (n : Nat) : Nat := log2go n n

theorem log2go_bounds : ∀ (f n : Nat), n ≤ f → 1 ≤ n →
    2 ^ log2go f n ≤ n ∧ n < 2 ^ (log2go f n + 1) := by
  intro f
  induction f with
  | zero => intro n h1 h2; omega
  | succ f ih =>
    intro n h1 h2
    by_cases h : 2 ≤ n
    · have hd1 : n / 2 ≤ f := by omega
      have hd2 : 1 ≤ n / 2 := by omega
      obtain ⟨a, b⟩ := ih (n / 2) hd1 hd2
      simp only [log2go, if_pos h]
      rw [pow_succ, pow_succ] at *
      omega
    · have hn : n = 1 := by omega
      subst hn
      simp [log2go]

theorem log2_bounds (n : Nat) (h : 1 ≤ n) :
    2 ^ log2 n ≤ n ∧ n < 2 ^ (log2 n + 1) :=
  log2go_bounds n n (Nat.le_refl n) h

theorem log2_eq_of (m k : Nat) (h1 : 1 ≤ m) (h2 : 2 ^ k ≤ m) (h3 : m < 2 ^ (k + 1)) :
    log2 m = k := by
  obtain ⟨a, b⟩ := log2_bounds m h1
  rcases Nat.lt_trichotomy (log2 m) k with h | h | h
  · have hp : 2 ^ (log2 m + 1) ≤ 2 ^ k := Nat.pow_le_pow_right (by omega) (by omega)
    omega
  · exact h
  · have hp : 2 ^ (k + 1) ≤ 2 ^ log2 m := Nat.pow_le_pow_right (by omega) (by omega)
    omega

/-- `u64::is_power_of_two` by its documented semantics: `n` equals
`2 ^ k` for some `k`. Computably: `n ≠ 0` and `n = 2 ^ log2 n`. -/
def is_power_of_two (n : Nat) : Bool := n != 0 && n == 2 ^ log2 n

/-- Sanity check that `is_power_of_two` has the documented meaning of
the Rust library function it embeds. -/
theorem is_power_of_two_iff (n : Nat) : is_power_of_two n = true ↔ ∃ k, n = 2 ^ k := by
  unfold is_power_of_two
  simp only [Bool.and_eq_true, bne_iff_ne, ne_eq, beq_iff_eq]
  constructor
  · rintro ⟨h0, h⟩; exact ⟨log2 n, h⟩
  · rintro ⟨k, rfl⟩
    have hp : (0:Nat) < 2 ^ k := Nat.pos_pow_of_pos k (by omega)
    refine ⟨by omega, ?_⟩
    have := log2_eq_of (2 ^ k) k (by omega) (Nat.le_refl _)
      (by have : (2:Nat) ^ (k + 1) = 2 ^ k * 2 := pow_succ 2 k; omega)
    rw [this]

/-- `u64::next_power_of_two` by its documented semantics: the smallest
power of two greater than or equal to `n` (and `1` for `n = 0`) — for
`n ≤ 2 ^ 63`, the largest `u64` power of two.  For `n > 2 ^ 63` the
`u64` result overflows; the Rust documentation specifies that release
builds wrap the returned value to `0` (debug builds panic), and the
release-mode value is modelled here. -/
def next_power_of_two (n : Nat) : Nat :=
  if n ≤ 1 then 1
  else if 2 ^ 63 < n then 0
  else 2 ^ (log2 (n - 1) + 1)

/-- The `while block_size > max_bytes { block_size /= 2 }` loop of
`Allocator::heap_block_size`, fuel-driven (fuel `b` suffices: the loop
halves `b` at most `log2 b + 1 ≤ b` times before it reaches `0 ≤ m`). -/
def shrinkGo : Nat → Nat → Nat → Nat
  | 0, b, _ => b
  | f + 1, b, m => if m < b then shrinkGo f (b / 2) m else b

def shrink (b m : Nat) : Nat := shrinkGo b b m

/-- `Allocator::heap_block_size` (`memalloc.rs` lines 546-571). -/
def heap_block_size (heap max_bytes block_size : Nat) : Nat × Nat :=
  let max_bytes := min max_bytes heap
  let block_size :=
    if block_size = 0 ∨ max_bytes < block_size then
      (if 1073741824 ≤ heap then 268435456 else heap / 8)
    else block_size
  let block_size :=
    if is_power_of_two block_size then block_size
    else next_power_of_two block_size / 2
  (max_bytes, shrink block_size max_bytes)

/-- The sizing policy as the spec states it (§4.4): `max_bytes =
min(requested_max, H)`; a requested block size of `0` or exceeding
`max_bytes` is replaced by 256 MiB for heaps of at least 1 GiB and
`H / 8` otherwise; the choice is rounded down to the nearest power of
two (`2 ^ log2 x`, the greatest power of two `≤ x`); it is then halved
while it exceeds `max_bytes`. -/
def heap_block_size_spec (heap requested_max requested_block_size : Nat) : Nat × Nat :=
  let m := min requested_max heap
  let chosen :=
    if requested_block_size = 0 ∨ m < requested_block_size then
      (if 1073741824 ≤ heap then 268435456 else heap / 8)
    else requested_block_size
  let rounded := if chosen = 0 then 0 else 2 ^ log2 chosen
  (m, shrink rounded m)

/-- The rounding step of the source (keep a power of two, otherwise
`next_power_of_two / 2`) equals rounding down to the greatest power of
two `≤ x` (with `0 ↦ 0`), provided `x ≤ 2 ^ 63` so that
`u64::next_power_of_two` does not overflow. -/
theorem round_eq (x : Nat) (hx : x ≤ 2 ^ 63) :
    (if is_power_of_two x then x else next_power_of_two x / 2) =
      (if x = 0 then 0 else 2 ^ log2 x) := by
  by_cases h0 : x = 0
  · subst h0; decide
  · rw [if_neg h0]
    by_cases hp : is_power_of_two x = true
    · rw [if_pos hp]
      unfold is_power_of_two at hp
      simp only [Bool.and_eq_true, bne_iff_ne, ne_eq, beq_iff_eq] at hp
      exact hp.2
    · rw [if_neg hp]
      have hx1 : x ≠ 1 := by rintro rfl; exact hp (by decide)
      have hx2 : 2 ≤ x := by omega
      obtain ⟨hl, hr⟩ := log2_bounds x (by omega)
      have hne : x ≠ 2 ^ log2 x := by
        intro he
        apply hp
        unfold is_power_of_two
        simp only [Bool.and_eq_true, bne_iff_ne, ne_eq, beq_iff_eq]
        exact ⟨h0, he⟩
      have hlt : 2 ^ log2 x < x := lt_of_le_of_ne hl (fun e => hne e.symm)
      unfold next_power_of_two
      rw [if_neg (by omega : ¬ x ≤ 1), if_neg (Nat.not_lt.mpr hx)]
      have hb : log2 (x - 1) = log2 x := by
        refine log2_eq_of (x - 1) (log2 x) (by omega) (by omega) (by omega)
      rw [hb, pow_succ]
      omega

/-- The `Allocator` (`memalloc.rs` lines 317-323): the `dedicated`
override from `AllocatorOptions` and the memory-type table.  The
per-heap pools (each behind its own `Mutex`) are threaded separately as
explicit state. -/
structure Allocator where
  dedicated : Bool
  memory_types : List MemoryType
  deriving DecidableEq

/-- The retry loop of `Allocator::allocate_raw` (`memalloc.rs` lines
450-472), fuel-driven: every iteration clears one set bit of the mask
(`find_mem_type_index` only returns indices whose bit is set, so
`mask &&& !(1 <<< idx)` equals `mask - 2 ^ idx`), hence the mask
strictly decreases and fuel equal to the initial mask suffices; if fuel
ever ran out the mask would already be `0`, and the fuel-exhausted
branch returns exactly the `mask = 0` result. `none` models a panic
(inside `Pool::allocate`, or indexing `pools` out of bounds). -/
def allocate_raw_go (memory_types : List MemoryType) (reqs : Requirements)
    (options : AllocOptions) (control : AllocControl) (newMem : Nat) :
    Nat → Nat → List Pool → Option Error → Option (Except Error AllocRes × List Pool)
  | 0, _, pools, common_err => some (.error (common_err.getD .HeapExhausted), pools)
  | fuel + 1, mask, pools, common_err =>
    if mask = 0 then some (.error (common_err.getD .HeapExhausted), pools)
    else
      match find_mem_type_index memory_types mask options with
      | none => some (.error (common_err.getD .HeapExhausted), pools)
      | some idx =>
        let ty := memory_types.getD idx default
        if h : ty.heap_index < pools.length then
          match (pools.get ⟨ty.heap_index, h⟩).allocate idx reqs control newMem with
          | none => none
          | some (.ok (res, p')) => some (.ok res, pools.set ty.heap_index p')
          | some (.error e) =>
            allocate_raw_go memory_types reqs options control newMem
              fuel (mask - 2 ^ idx) pools (some e)
        else none

/-- `Allocator::allocate_raw` (`memalloc.rs` lines 440-473). -/
def Allocator.allocate_raw (a : Allocator) (pools : List Pool) (reqs : Requirements)
    (options : AllocOptions) (newMem : Nat) :
    Option (Except Error AllocRes × List Pool) :=
  let control := if a.dedicated then AllocControl.Dedicated else options.control
  allocate_raw_go a.memory_types reqs options control newMem
    reqs.type_mask reqs.type_mask pools none

/-- `BufferAlloc` (`memalloc.rs` lines 188-195); the device buffer
handle is modelled by its identity. -/
structure BufferAlloc where
  buffer : Nat
  mem : Nat
  range : Span
  heap_idx : Nat
  deriving DecidableEq

/-- `Allocator::allocate_buffer` (`memalloc.rs` lines 362-381).
Device behavior is supplied by the caller: `bufId` is the handle of the
buffer `create_buffer` returns, `createFails` / `bindFails` say whether
`create_buffer` / `bind_buffer_memory` fail, and `reqs` is what
`get_buffer_requirements` reports. The final `Bool` records whether
the call destroyed the created buffer (the source has no
`destroy_buffer` call on any of its paths, so it is always `false`). -/
def Allocator.allocate_buffer (a : Allocator) (pools : List Pool)
    (options : AllocOptions) (bufId : Nat) (createFails : Bool) (reqs : Requirements)
    (newMem : Nat) (bindFails : Bool) :
    Option (Except BufferError BufferAlloc × List Pool × Bool) :=
  if createFails then some (.error .Creation, pools, false)
  else
    match a.allocate_raw pools reqs options newMem with
    | none => none
    | some (.error e, pools') => some (.error (.Error e), pools', false)
    | some (.ok res, pools') =>
      if bindFails then some (.error .Bind, pools', false)
      else some (.ok ⟨bufId, res.mem, res.span, res.heap_idx⟩, pools', false)

/-- `Block.allocate` only rewrites the chunk list: the `dedicated` flag
of the block it returns is the flag of the block it was called on. -/
theorem Block.allocate_dedicated {b : Block} {hi : Nat} {r : Requirements}
    {res : AllocRes} {b' : Block} (he : b.allocate hi r = some (res, b')) :
    b'.dedicated = b.dedicated := by
  unfold Block.allocate at he
  cases hf : findSpot r b.chunks 0 with
  | none => rw [hf] at he; simp at he
  | some spot =>
    rw [hf] at he
    simp only [Option.map_some', Option.some.injEq, Prod.mk.injEq] at he
    rw [← he.2]

/-- C1: the capacity check of `Pool::new_block_alloc` is inverted. On a
fresh pool with `max_bytes = 100` and a dedicated request of size 10
(so `used_bytes + sz = 10 ≤ 100`, which the claim says must proceed)
the call returns `HeapExhausted`; with `used_bytes = 95` (so
`used_bytes + sz = 105 > 100`, which the claim says must be rejected)
the call succeeds and sets `used_bytes := 105`. -/
theorem C1_capacity_check_inverted :
    (Pool.new 0 100 10).new_block_alloc 0 ⟨10, 1, 1⟩ true 7 =
      some (.error .HeapExhausted) ∧
    ({ Pool.new 0 100 10 with used_bytes := 95 } : Pool).new_block_alloc 0 ⟨10, 1, 1⟩ true 7 =
      some (.ok (⟨7, ⟨0, 10⟩, 0⟩,
        ⟨0, 100, 105, 10, [⟨7, 0, true, [⟨⟨0, 10⟩, false⟩]⟩]⟩)) :=
  ⟨rfl, rfl⟩

/-- C2: `Block::allocate` never replaces the accepted free chunk with
the occupied chunk `[start, end)`. On a fresh block of size 64, an
allocation of size 16 (alignment 1) returns the span `[0, 16)` but
leaves the chunk list as `[free 0..64, free 16..64]` — every chunk
still free, the accepted chunk not replaced by the claimed
pre-pad/occupied/post-pad sequence. -/
theorem C2_no_occupied_chunk_inserted :
    (Block.new 2 0 64 false).allocate 0 ⟨16, 1, 1⟩ =
      some (⟨2, ⟨0, 16⟩, 0⟩,
        ⟨2, 0, false, [⟨⟨0, 64⟩, false⟩, ⟨⟨16, 64⟩, false⟩]⟩) ∧
    ([⟨⟨0, 64⟩, false⟩, ⟨⟨16, 64⟩, false⟩] : List Chunk).all (fun c => !c.occupied) = true :=
  ⟨rfl, rfl⟩

/-- C3: the chunk-list invariants I1 and I2 hold on a fresh block but
are both violated after the very first allocation: the resulting list
`[free 0..100, free 10..100]` overlaps, does not partition `[0, 100)`,
and contains two adjacent free chunks. -/
theorem C3_invariant_broken_by_first_allocate :
    block_invariant 100 (Block.new 3 0 100 false).chunks = true ∧
    (Block.new 3 0 100 false).allocate 0 ⟨10, 1, 1⟩ =
      some (⟨3, ⟨0, 10⟩, 0⟩,
        ⟨3, 0, false, [⟨⟨0, 100⟩, false⟩, ⟨⟨10, 100⟩, false⟩]⟩) ∧
    block_invariant 100 [⟨⟨0, 100⟩, false⟩, ⟨⟨10, 100⟩, false⟩] = false :=
  ⟨rfl, rfl, rfl⟩

/-- C4: `Block::free` indexes the chunk list out of range. On a block
whose chunk list is the single occupied chunk `[0, 16)` — a list
satisfying invariants I1 and I2, with an occupied chunk starting at the
given offset 0 — the source guards the back merge with
`idx < self.chunks.len()` (true, since `idx = 0 < 1`) and then reads
`self.chunks[idx + 1]`, which is out of bounds (`none` = panic),
instead of returning `true` for the now fully-free block. -/
theorem C4_free_reads_out_of_range :
    block_invariant 16 [⟨⟨0, 16⟩, true⟩] = true ∧
    (⟨5, 0, false, [⟨⟨0, 16⟩, true⟩]⟩ : Block).free 0 = none :=
  ⟨rfl, rfl⟩

/-- C5: the `required_props` test of `find_mem_type_index` is inverted
(`required.contains(props)`, i.e. `props ⊆ required`, instead of
`props ⊇ required`). With required = bit 1, preferred = bits 2 and 4,
and types T0 = {1}, T1 = {1,2}, T2 = {1,2,4} all allowed, the code
returns T0 (index 0) where the claim requires T2 (index 2); and a
single allowed type whose properties strictly contain the required bits
is rejected outright. -/
theorem C5_required_props_test_inverted :
    find_mem_type_index [⟨1, 0⟩, ⟨3, 0⟩, ⟨7, 0⟩] 7 ⟨.Pool false, none, 6, 1, 0⟩ = some 0 ∧
    find_mem_type_index [⟨3, 0⟩] 1 ⟨.Pool false, none, 0, 1, 0⟩ = none :=
  ⟨rfl, rfl⟩

/-- C6: `used_bytes` can exceed `max_bytes`. From a fresh pool with
`max_bytes = 100`, a single dedicated allocation of size 150 passes the
(inverted) capacity check and leaves `used_bytes = 150 > 100 =
max_bytes` with no error reported. -/
theorem C6_used_bytes_exceeds_max_bytes :
    (Pool.new 0 100 100).allocate 0 ⟨150, 1, 1⟩ .Dedicated 9 =
      some (.ok (⟨9, ⟨0, 150⟩, 0⟩,
        ⟨0, 100, 150, 100, [⟨9, 0, true, [⟨⟨0, 150⟩, false⟩]⟩]⟩)) ∧
    (⟨0, 100, 150, 100, [⟨9, 0, true, [⟨⟨0, 150⟩, false⟩]⟩]⟩ : Pool).max_bytes <
      (⟨0, 100, 150, 100, [⟨9, 0, true, [⟨⟨0, 150⟩, false⟩]⟩]⟩ : Pool).used_bytes :=
  ⟨rfl, by decide⟩

/-- C7: the fully-free path of `Pool::free` is unreachable: on a pool
holding one block whose chunk list is the single occupied chunk
`[0, 10)` (`used_bytes = 10`), freeing that allocation panics inside
`Block::free` (out-of-bounds chunk read, `none`) instead of removing
the block, decrementing `used_bytes` and releasing the memory — and the
source of `Pool::free` contains no decrement of `used_bytes` at all. -/
theorem C7_free_full_block_panics :
    (⟨0, 100, 10, 10, [⟨4, 0, false, [⟨⟨0, 10⟩, true⟩]⟩]⟩ : Pool).free 4 0 = none :=
  rfl

/-- C8 (counterexample): the claimed round-down-to-a-power-of-two rule
fails at the `u64` boundary. At `heap = requested_max = 2 ^ 64 - 1` and
`requested_block_size = 2 ^ 63 + 1` (not substituted, since it does not
exceed `max_bytes`), `u64::next_power_of_two` overflows and release
builds of `heap_block_size` return a block size of `0` (debug builds
panic), while rounding `2 ^ 63 + 1` down to the nearest power of two —
`heap_block_size_spec`, written from the claim — gives `2 ^ 63`. -/
theorem C8_next_power_of_two_wraps :
    heap_block_size 18446744073709551615 18446744073709551615 9223372036854775809 =
      (18446744073709551615, 0) ∧
    heap_block_size_spec 18446744073709551615 18446744073709551615 9223372036854775809 =
      (18446744073709551615, 9223372036854775808) ∧
    (0 : Nat) ≠ 9223372036854775808 :=
  ⟨rfl, rfl, by decide⟩

/-- C8 (amended): for `u64` heap sizes and any requested block size of
at most `2 ^ 63` (so that `u64::next_power_of_two` cannot overflow; a
substituted default — 256 MiB or `H / 8` — never overflows),
`Allocator::heap_block_size` computes exactly the sizing policy of the
spec: `max_bytes = min(requested_max, H)`; a requested block size of 0
or exceeding `max_bytes` replaced by 256 MiB when `H ≥ 1 GiB` and by
`H / 8` otherwise; rounding down to the greatest power of two; halving
while above `max_bytes`. In particular a 2 GiB heap maps to a 256 MiB
block size and a 512 MiB heap to a 64 MiB block size. -/
theorem C8_heap_block_size (heap requested_max requested_block_size : Nat)
    (hheap : heap < 2 ^ 64) (hbs : requested_block_size ≤ 2 ^ 63) :
    heap_block_size heap requested_max requested_block_size =
      heap_block_size_spec heap requested_max requested_block_size ∧
    heap_block_size 2147483648 2147483648 0 = (2147483648, 268435456) ∧
    heap_block_size 536870912 536870912 0 = (536870912, 67108864) := by
  refine ⟨?_, rfl, rfl⟩
  have hch : (if requested_block_size = 0 ∨ min requested_max heap < requested_block_size then
      (if 1073741824 ≤ heap then 268435456 else heap / 8)
      else requested_block_size) ≤ 2 ^ 63 := by
    have h64 : (2 : Nat) ^ 64 = 18446744073709551616 := by norm_num
    have h63 : (2 : Nat) ^ 63 = 9223372036854775808 := by norm_num
    split_ifs with h1 h2
    · omega
    · omega
    · exact hbs
  simp only [heap_block_size, heap_block_size_spec]
  rw [round_eq _ hch]

/-- C8 (witness): the amended statement instantiated at the 2 GiB heap
with the default block size, both hypotheses discharged. -/
theorem C8_heap_block_size_witness :
    (2147483648 : Nat) < 2 ^ 64 ∧ (0 : Nat) ≤ 2 ^ 63 ∧
    heap_block_size 2147483648 2147483648 0 =
      heap_block_size_spec 2147483648 2147483648 0 :=
  ⟨by norm_num, Nat.zero_le _,
    (C8_heap_block_size 2147483648 2147483648 0 (by norm_num) (Nat.zero_le _)).1⟩

/-- C9 (counterexample): a pool-mode allocation (control `Pool`,
`no_alloc = false`) whose requirement size 200 is at least the
configured block size 100 creates a new block whose `dedicated` flag is
`true` — contradicting the claim that pool-mode never creates
dedicated-flagged blocks. -/
theorem C9_pool_block_flagged_dedicated :
    (Pool.new 0 100 100).allocate_pool 0 ⟨200, 1, 1⟩ false 11 =
      some (.ok (⟨11, ⟨0, 200⟩, 0⟩,
        ⟨0, 100, 200, 100, [⟨11, 0, true, [⟨⟨0, 200⟩, false⟩]⟩]⟩)) ∧
    (⟨11, 0, true, [⟨⟨0, 200⟩, false⟩]⟩ : Block).dedicated = true :=
  ⟨rfl, rfl⟩

/-- C9 (amended): a pool-mode block creation
(`new_block_alloc … dedicated := false`) flags the created block
dedicated exactly when the configured block size is at most the
requirement size (the source computes the flag as `sz == reqs.size`
with `sz = max(reqs.size, block_size)`); only requests smaller than the
block size produce non-dedicated blocks that later pool-mode scans will
consider. -/
theorem C9_new_block_dedicated_flag (p : Pool) (mti : Nat) (reqs : Requirements)
    (newMem : Nat) (res : AllocRes) (p' : Pool)
    (h : p.new_block_alloc mti reqs false newMem = some (.ok (res, p'))) :
    (p'.blocks.getLast?.map Block.dedicated = some true) ↔ p.block_size ≤ reqs.size := by
  unfold Pool.new_block_alloc at h
  simp only [Bool.false_eq_true, if_false] at h
  split at h
  · simp at h
  · cases hf : (Block.new newMem mti (max reqs.size p.block_size)
        ((max reqs.size p.block_size) == reqs.size)).allocate p.heap_idx reqs with
    | none => rw [hf] at h; simp at h
    | some pr =>
      obtain ⟨res0, blk⟩ := pr
      rw [hf] at h
      simp only [Option.some.injEq, Except.ok.injEq, Prod.mk.injEq] at h
      rw [← h.2]
      rw [List.getLast?_concat]
      have hd : blk.dedicated = ((max reqs.size p.block_size) == reqs.size) :=
        Block.allocate_dedicated hf
      simp only [Option.map_some', Option.some.injEq, hd, beq_iff_eq]
      exact max_eq_left_iff

/-- C9 (witness): instantiating the amended statement at a concrete
pool-mode creation — block size 40, requirement 60 — whose created
block is flagged dedicated. -/
theorem C9_new_block_dedicated_flag_witness :
    ((⟨3, 50, 60, 40, [⟨13, 2, true, [⟨⟨0, 60⟩, false⟩]⟩]⟩ : Pool).blocks.getLast?.map
        Block.dedicated = some true) ↔ (40 : Nat) ≤ 60 :=
  C9_new_block_dedicated_flag (Pool.new 3 50 40) 2 ⟨60, 1, 1⟩ 13 ⟨13, ⟨0, 60⟩, 3⟩
    ⟨3, 50, 60, 40, [⟨13, 2, true, [⟨⟨0, 60⟩, false⟩]⟩]⟩ rfl

/-- C10: `allocate_buffer` is not atomic with respect to a bind
failure: whenever the raw sub-allocation succeeds (taking the pools to
state `pools'`) and `bind_buffer_memory` then fails, the call returns
the bind error while the pools stay in the post-allocation state
`pools'` (no free or rollback) and the created buffer is not
destroyed. -/
theorem C10_bind_failure_no_rollback (a : Allocator) (pools : List Pool)
    (options : AllocOptions) (bufId : Nat) (reqs : Requirements) (newMem : Nat)
    (res : AllocRes) (pools' : List Pool)
    (h : a.allocate_raw pools reqs options newMem = some (.ok res, pools')) :
    a.allocate_buffer pools options bufId false reqs newMem true =
      some (.error .Bind, pools', false) := by
  unfold Allocator.allocate_buffer
  simp [h]

/-- C10 (witness): a concrete single-type, single-heap allocator where
the sub-allocation succeeds, the bind fails, and the pool keeps the
block created for the failed call. -/
theorem C10_bind_failure_no_rollback_witness :
    Allocator.allocate_buffer ⟨false, [⟨0, 0⟩]⟩ [Pool.new 0 10 10]
        ⟨.Pool false, none, 0, 0, 0⟩ 42 false ⟨10, 1, 1⟩ 5 true =
      some (.error .Bind,
        [⟨0, 10, 10, 10, [⟨5, 0, true, [⟨⟨0, 10⟩, false⟩]⟩]⟩], false) :=
  C10_bind_failure_no_rollback ⟨false, [⟨0, 0⟩]⟩ [Pool.new 0 10 10]
    ⟨.Pool false, none, 0, 0, 0⟩ 42 ⟨10, 1, 1⟩ 5 ⟨5, ⟨0, 10⟩, 0⟩
    [⟨0, 10, 10, 10, [⟨5, 0, true, [⟨⟨0, 10⟩, false⟩]⟩]⟩] rfl

end Memalloc
